import Mathlib

/-!
Shallow embedding of the lab-monitor dashboard script
(`streamlit_lab_monitor.py`): the queue-drain ingestion loop, the three
prediction wrappers, the bounded history store, and the publish step.

Python exceptions are modelled with `Except PyErr`; Python floats are
modelled as rationals; the three pre-trained classifier artifacts are
opaque and modelled as records of (possibly failing) functions; wall-clock
timestamps are passed in as parameters.
-/

namespace LabMonitor

/-- The Python exception classes that the modelled code can raise. -/
inductive PyErr where
  | valueError
  | typeError
  | indexError
  deriving DecidableEq, Repr

/-- A JSON value sitting in a decoded payload dict, classified by how
Python's `float(...)` coercion treats it: `num q` is a JSON number (or
bool), `numStr q` is a string that parses as the float `q`, `badStr` is a
string that does not parse (`float` raises `ValueError`), and `nonNumeric`
is any other JSON value — `null`, array, object — on which `float` raises
`TypeError`. -/
inductive JVal where
  | num (q : ℚ)
  | numStr (q : ℚ)
  | badStr
  | nonNumeric
  deriving DecidableEq, Repr

/-- A decoded JSON object payload: a finite key/value dict. -/
abbrev Payload : Type := List (String × JVal)

/-- Python `float(v)` on a JSON value `v`. -/
def pyFloat : JVal → Except PyErr ℚ
  | .num q => .ok q
  | .numStr q => .ok q
  | .badStr => .error .valueError
  | .nonNumeric => .error .typeError

/-- Model of `float(payload.get(key, 0))` — the default `0` is used only when the
key is absent; a present value goes through `float` and may raise. -/
def parseField (p : Payload) (k : String) : Except PyErr ℚ :=
  match List.lookup k p with
  | none => .ok 0
  | some v => pyFloat v

/-- Python `max(xs)`: raises `ValueError` on an empty sequence. -/
def pyMax : List ℚ → Except PyErr ℚ
  | [] => .error .valueError
  | x :: xs => .ok (xs.foldl max x)

/-- Python `xs[i]` on a list: raises `IndexError` out of bounds. -/
def listIndex (l : List ℚ) (i : ℕ) : Except PyErr ℚ :=
  match l.get? i with
  | some x => .ok x
  | none => .error .indexError

/-- Round-half-to-even to an integer, the rounding Python's `round` uses. -/
def pyRoundHalfEven (x : ℚ) : ℤ :=
  if x - ⌊x⌋ < 1/2 then ⌊x⌋
  else if 1/2 < x - ⌊x⌋ then ⌊x⌋ + 1
  else if ⌊x⌋ % 2 = 0 then ⌊x⌋ else ⌊x⌋ + 1

/-- Python `round(x, 1)`: round to one decimal place, half to even. -/
def round1 (x : ℚ) : ℚ := (pyRoundHalfEven (x * 10) : ℚ) / 10

/-- The opaque MQ-135 artifact: `model.predict` on the one-row frame built
from (temperature, humidity, gas) in the artifact's fixed column order,
`label_encoder.inverse_transform`, and `model.predict_proba` on the same
row. Each call is opaque and may raise. -/
structure MQ135Model where
  predict : ℚ → ℚ → ℚ → Except PyErr ℕ
  inverseTransform : ℕ → Except PyErr String
  predictProba : ℚ → ℚ → ℚ → Except PyErr (List ℚ)

/-- An opaque single-feature classifier (the MQ-2 and MQ-7 artifacts):
`predict` yields a category label, `predict_proba` per-category scores. -/
structure SimpleModel where
  predict : ℚ → Except PyErr String
  predictProba : ℚ → Except PyErr (List ℚ)

/-- The three model slots produced by `load_models`; a slot is `none` when
loading raised at startup. -/
structure Models where
  mq135 : Option MQ135Model
  mq2 : Option SimpleModel
  mq7 : Option SimpleModel

/-- The body of `predict_mq135`'s `try` block: predict a category index,
decode it through the label encoder, and take the predicted class's
probability times 100 rounded to one decimal. -/
def mq135Try (m : MQ135Model) (temp hum gas : ℚ) : Except PyErr (String × ℚ) := do
  let idx ← m.predict temp hum gas
  let label ← m.inverseTransform idx
  let proba ← m.predictProba temp hum gas
  let p ← listIndex proba idx
  pure (label, round1 (p * 100))

/-- The wrapper `predict_mq135(temp, hum, gas)`. -/
def predict_mq135 (slot : Option MQ135Model) (temp hum gas : ℚ) : String × ℚ :=
  match slot with
  | none => ("N/A", 0)
  | some m =>
    match mq135Try m temp hum gas with
    | .ok r => r
    | .error _ => ("Error", 0)

/-- The body of `predict_mq2`'s (and `predict_mq7`'s) `try` block: predict
a label and take the maximum per-category probability times 100 rounded to
one decimal. -/
def simpleTry (m : SimpleModel) (x : ℚ) : Except PyErr (String × ℚ) := do
  let pred ← m.predict x
  let proba ← m.predictProba x
  let mx ← pyMax proba
  pure (pred, round1 (mx * 100))

/-- The wrapper `predict_mq2(mq2_ppm)`. -/
def predict_mq2 (slot : Option SimpleModel) (x : ℚ) : String × ℚ :=
  match slot with
  | none => ("N/A", 0)
  | some m =>
    match simpleTry m x with
    | .ok r => r
    | .error _ => ("Error", 0)

/-- The wrapper `predict_mq7(mq7_ppm)`. -/
def predict_mq7 (slot : Option SimpleModel) (x : ℚ) : String × ℚ :=
  match slot with
  | none => ("N/A", 0)
  | some m =>
    match simpleTry m x with
    | .ok r => r
    | .error _ => ("Error", 0)

/-- The session field `sensor_data`. -/
structure SensorData where
  temp : ℚ
  hum : ℚ
  mq135 : ℚ
  mq2 : ℚ
  mq7 : ℚ
  timestamp : String
  deriving DecidableEq, Repr

/-- The session field `predictions`: one (label, confidence) pair per slot. -/
structure Predictions where
  mq135 : String × ℚ
  mq2 : String × ℚ
  mq7 : String × ℚ
  deriving DecidableEq, Repr

/-- One record of `st.session_state.history`. -/
structure HistoryRecord where
  time : String
  temp : ℚ
  hum : ℚ
  mq135 : ℚ
  mq2 : ℚ
  mq7 : ℚ
  status135 : String
  statusMQ2 : String
  statusMQ7 : String
  deriving DecidableEq, Repr

/-- The mutable session state touched by the drain loop. -/
structure SessionState where
  sensor_data : SensorData
  predictions : Predictions
  history : List HistoryRecord
  deriving DecidableEq, Repr

/-- The session state as first initialised by the script. -/
def initialState : SessionState :=
  { sensor_data := ⟨0, 0, 0, 0, 0, "-"⟩,
    predictions := ⟨("Menunggu...", 0), ("Menunggu...", 0), ("Menunggu...", 0)⟩,
    history := [] }

/-- One `mqtt_client.publish` call: output topic plus the encoded
label/confidence payload. -/
structure PubMsg where
  topic : String
  label : String
  confidence : ℚ
  deriving DecidableEq, Repr

def TOPIC_DATA : String := "net4think/lab_monitor/data"

def TOPIC_PRED_MQ135 : String := "net4think/lab_monitor/pred_mq135"

def TOPIC_PRED_MQ2 : String := "net4think/lab_monitor/pred_mq2"

def TOPIC_PRED_MQ7 : String := "net4think/lab_monitor/pred_mq7"

/-- The five `float(payload.get(...))` parses at the top of the drain
body, in program order; the first raising field aborts the block. -/
def parseFields (p : Payload) : Except PyErr (ℚ × ℚ × ℚ × ℚ × ℚ) := do
  let temp ← parseField p "temperature"
  let hum ← parseField p "humidity"
  let g135 ← parseField p "mq135_ppm"
  let g2 ← parseField p "mq2_ppm"
  let g7 ← parseField p "mq7_ppm"
  pure (temp, hum, g135, g2, g7)

/-- The rest of the drain body after the five parses succeeded: overwrite
`sensor_data`, run the three predictions, publish (when the client
connected), append the new history record and evict with `pop(0)` when the
length exceeds 1000. Returns the updated state and the published messages. -/
def stepData (models : Models) (conn : Bool) (ts : String) (st : SessionState)
    (vals : ℚ × ℚ × ℚ × ℚ × ℚ) : SessionState × List PubMsg :=
  let (temp, hum, g135, g2, g7) := vals
  let p135 := predict_mq135 models.mq135 temp hum g135
  let p2 := predict_mq2 models.mq2 g2
  let p7 := predict_mq7 models.mq7 g7
  let newRecord : HistoryRecord :=
    ⟨ts, temp, hum, g135, g2, g7, p135.1, p2.1, p7.1⟩
  let hist1 := st.history ++ [newRecord]
  let hist2 := if hist1.length > 1000 then hist1.tail else hist1
  let pubs := if conn then
      [⟨TOPIC_PRED_MQ135, p135.1, p135.2⟩,
       ⟨TOPIC_PRED_MQ2, p2.1, p2.2⟩,
       ⟨TOPIC_PRED_MQ7, p7.1, p7.2⟩]
    else []
  ({ sensor_data := ⟨temp, hum, g135, g2, g7, ts⟩,
     predictions := ⟨p135, p2, p7⟩,
     history := hist2 }, pubs)

/-- Processing one dequeued `(topic, payload)` pair: non-matching topics
fall through untouched; on the data topic the five fields are parsed (any
parse fault propagates) and then the pure update runs. -/
def processMessage (models : Models) (conn : Bool) (ts : String)
    (st : SessionState) (topic : String) (payload : Payload) :
    Except PyErr (SessionState × List PubMsg) :=
  if topic = TOPIC_DATA then
    (parseFields payload).map (stepData models conn ts st)
  else
    .ok (st, [])

/-- The `while not queue.empty()` drain: process the queued items in FIFO
order, threading the state; an uncaught exception aborts the whole pass
(and with it the subsequent render). Each item carries the wall-clock
timestamp observed when it is processed. -/
def drainQueue (models : Models) (conn : Bool) (st : SessionState) :
    List (String × Payload × String) →
    Except PyErr (SessionState × List PubMsg)
  | [] => .ok (st, [])
  | (topic, payload, ts) :: rest => do
    let (st1, pubs1) ← processMessage models conn ts st topic payload
    let (st2, pubs2) ← drainQueue models conn st1 rest
    pure (st2, pubs1 ++ pubs2)

/-- Models record with every slot failed to load. -/
def noModels : Models := ⟨none, none, none⟩

/-- A confidence value is well-formed when it lies in [0, 100] and is an
exact multiple of one tenth (one decimal place). -/
def confOK (c : ℚ) : Prop := (0 ≤ c ∧ c ≤ 100) ∧ ∃ k : ℤ, c = (k : ℚ) / 10

/-- A placeholder history record used to build concrete states. -/
def dummyRecord : HistoryRecord := ⟨"-", 0, 0, 0, 0, 0, "-", "-", "-"⟩

/-- A session state whose history store holds exactly 1000 records. -/
def fullHistoryState : SessionState :=
  { initialState with history := List.replicate 1000 dummyRecord }

/-- An MQ-135 artifact whose `predict` raises on every input. -/
def failing135 : MQ135Model :=
  ⟨fun _ _ _ => .error .valueError, fun _ => .ok "", fun _ _ _ => .ok []⟩

/-- A single-feature artifact whose `predict` raises on every input. -/
def failingSimple : SimpleModel :=
  ⟨fun _ => .error .valueError, fun _ => .ok []⟩

/-- Models record with every slot loaded but raising at inference time. -/
def failingModels : Models :=
  ⟨some failing135, some failingSimple, some failingSimple⟩

/-- An MQ-135 artifact that predicts class 0, decoded as "Baik", with
per-class probabilities 0.92 and 0.08. -/
def baikModel : MQ135Model :=
  ⟨fun _ _ _ => .ok 0, fun _ => .ok "Baik", fun _ _ _ => .ok [92/100, 2/25]⟩

/-- A single-feature artifact predicting "smoke" with probability 0.7. -/
def smokeModel : SimpleModel :=
  ⟨fun _ => .ok "smoke", fun _ => .ok [7/10]⟩

/-! ## Helper lemmas -/

theorem exceptBind_ok {α β : Type} (a : α) (f : α → Except PyErr β) :
    (Except.ok a : Except PyErr α) >>= f = f a := rfl

theorem exceptBind_error {α β : Type} (e : PyErr) (f : α → Except PyErr β) :
    (Except.error e : Except PyErr α) >>= f = Except.error e := rfl

theorem exceptMap_ok {α β : Type} (f : α → β) (a : α) :
    (Except.ok a : Except PyErr α).map f = Except.ok (f a) := rfl

theorem predict_mq135_some (m : MQ135Model) (t u g : ℚ) :
    predict_mq135 (some m) t u g =
      match mq135Try m t u g with
      | .ok r => r
      | .error _ => ("Error", 0) := rfl

theorem predict_mq2_some (m : SimpleModel) (x : ℚ) :
    predict_mq2 (some m) x =
      match simpleTry m x with
      | .ok r => r
      | .error _ => ("Error", 0) := rfl

theorem predict_mq7_some (m : SimpleModel) (x : ℚ) :
    predict_mq7 (some m) x =
      match simpleTry m x with
      | .ok r => r
      | .error _ => ("Error", 0) := rfl

theorem foldl_max_le (xs : List ℚ) (x : ℚ) :
    x ≤ xs.foldl max x ∧ ∀ a ∈ xs, a ≤ xs.foldl max x := by
  induction xs generalizing x with
  | nil => simp
  | cons y ys ih =>
    have h1 := ih (max x y)
    refine ⟨le_trans (le_max_left x y) h1.1, ?_⟩
    intro a ha
    rcases List.mem_cons.mp ha with rfl | ha
    · exact le_trans (le_max_right x a) h1.1
    · exact h1.2 a ha

theorem foldl_max_mem (xs : List ℚ) (x : ℚ) :
    xs.foldl max x = x ∨ xs.foldl max x ∈ xs := by
  induction xs generalizing x with
  | nil => simp
  | cons y ys ih =>
    rcases ih (max x y) with h | h
    · rcases max_choice x y with hm | hm
      · left; simp only [List.foldl_cons]; rw [h, hm]
      · right; simp only [List.foldl_cons]; rw [h, hm]; exact List.mem_cons_self y ys
    · right; exact List.mem_cons_of_mem _ h

/-- The value Python's `max` returns on a nonempty list is an element of
the list and an upper bound of it. -/
theorem pyMax_is_max {l : List ℚ} {mx : ℚ} (hl : pyMax l = .ok mx) :
    mx ∈ l ∧ ∀ a ∈ l, a ≤ mx := by
  match l with
  | [] => exact absurd hl (by simp [pyMax])
  | x :: xs =>
    have hok : Except.ok (xs.foldl max x) = (Except.ok mx : Except PyErr ℚ) := hl
    have hmx : xs.foldl max x = mx := Except.ok.inj hok
    subst hmx
    refine ⟨?_, ?_⟩
    · rcases foldl_max_mem xs x with h | h
      · rw [h]; exact List.mem_cons_self x xs
      · exact List.mem_cons_of_mem _ h
    · intro a ha
      rcases List.mem_cons.mp ha with rfl | ha
      · exact (foldl_max_le xs a).1
      · exact (foldl_max_le xs x).2 a ha

theorem floor_le_pyRoundHalfEven (x : ℚ) : ⌊x⌋ ≤ pyRoundHalfEven x := by
  unfold pyRoundHalfEven
  split
  · exact le_refl _
  · split
    · exact le_of_lt (lt_add_one _)
    · split
      · exact le_refl _
      · exact le_of_lt (lt_add_one _)

theorem pyRoundHalfEven_nonneg {x : ℚ} (hx : 0 ≤ x) : 0 ≤ pyRoundHalfEven x :=
  le_trans (Int.floor_nonneg.mpr hx) (floor_le_pyRoundHalfEven x)

theorem pyRoundHalfEven_le {x : ℚ} {B : ℤ} (hx : x ≤ (B : ℚ)) :
    pyRoundHalfEven x ≤ B := by
  have hfl : ⌊x⌋ ≤ B := by
    have := Int.floor_le_floor hx
    simpa using this
  have hstrict : (1:ℚ)/2 ≤ x - ⌊x⌋ → ⌊x⌋ + 1 ≤ B := by
    intro hfrac
    have hlt : ((⌊x⌋ : ℚ)) < x := by linarith
    have : ((⌊x⌋ : ℚ)) < (B : ℚ) := lt_of_lt_of_le hlt hx
    exact_mod_cast Int.add_one_le_iff.mpr (by exact_mod_cast this)
  unfold pyRoundHalfEven
  split
  · exact hfl
  · split
    · exact hstrict (le_of_lt (by assumption))
    · split
      · exact hfl
      · have h1 : ¬ (x - ⌊x⌋ < 1/2) := by assumption
        exact hstrict (le_of_not_lt h1)

theorem round1_nonneg {x : ℚ} (hx : 0 ≤ x) : 0 ≤ round1 x := by
  unfold round1
  have : (0:ℚ) ≤ pyRoundHalfEven (x * 10) := by
    exact_mod_cast pyRoundHalfEven_nonneg (by linarith)
  positivity

theorem round1_le_100 {x : ℚ} (hx : x ≤ 100) : round1 x ≤ 100 := by
  unfold round1
  have h10 : x * 10 ≤ ((1000 : ℤ) : ℚ) := by push_cast; linarith
  have : ((pyRoundHalfEven (x * 10) : ℚ)) ≤ 1000 := by
    exact_mod_cast pyRoundHalfEven_le h10
  linarith

theorem round1_decimal (x : ℚ) : ∃ k : ℤ, round1 x = (k : ℚ) / 10 :=
  ⟨pyRoundHalfEven (x * 10), rfl⟩

/-! ## Claim theorems -/

/-- C4: if a model slot failed to load at startup (the slot is `none`),
the corresponding prediction function returns exactly `("N/A", 0)` for
every input, without invoking any model. -/
theorem unavailable_slot_returns_na (t u g x y : ℚ) :
    predict_mq135 none t u g = ("N/A", 0)
    ∧ predict_mq2 none x = ("N/A", 0)
    ∧ predict_mq7 none y = ("N/A", 0) :=
  ⟨rfl, rfl, rfl⟩

/-- C8: a dequeued pair whose topic differs from the data topic leaves the
session state (current readings, predictions, history) unchanged and
publishes nothing, and the drain pass over it completes without an
exception, so the render that follows the drain still happens. -/
theorem nondata_topic_is_noop (models : Models) (conn : Bool) (ts : String)
    (st : SessionState) (topic : String) (payload : Payload)
    (hne : topic ≠ TOPIC_DATA) :
    processMessage models conn ts st topic payload = .ok (st, [])
    ∧ drainQueue models conn st [(topic, payload, ts)] = .ok (st, []) := by
  have h1 : processMessage models conn ts st topic payload = .ok (st, []) := by
    unfold processMessage
    exact if_neg hne
  refine ⟨h1, ?_⟩
  simp only [drainQueue, h1]
  rfl

/-- Witness for C8 at a concrete unrelated topic and the initial state. -/
theorem nondata_topic_is_noop_witness :
    processMessage noModels true "00:00:00" initialState
        "net4think/lab_monitor/pred_mq135" [] = .ok (initialState, [])
    ∧ drainQueue noModels true initialState
        [("net4think/lab_monitor/pred_mq135", [], "00:00:00")] =
        .ok (initialState, []) :=
  nondata_topic_is_noop noModels true "00:00:00" initialState
    "net4think/lab_monitor/pred_mq135" [] (by decide)

/-- C10: a data-topic message whose decoded payload is the empty object is
not skipped: all five readings parse to 0, Current State is overwritten
with zero readings and the fresh timestamp, all three classifications run
on zeros, and a new history record (with eviction when over the cap) is
appended. -/
theorem empty_payload_still_processed (models : Models) (conn : Bool)
    (ts : String) (st : SessionState) :
    processMessage models conn ts st TOPIC_DATA [] =
      .ok (stepData models conn ts st (0, 0, 0, 0, 0))
    ∧ (stepData models conn ts st (0, 0, 0, 0, 0)).1.sensor_data =
        ⟨0, 0, 0, 0, 0, ts⟩
    ∧ (stepData models conn ts st (0, 0, 0, 0, 0)).1.predictions =
        ⟨predict_mq135 models.mq135 0 0 0, predict_mq2 models.mq2 0,
         predict_mq7 models.mq7 0⟩
    ∧ (stepData models conn ts st (0, 0, 0, 0, 0)).1.history =
        (let r : HistoryRecord := ⟨ts, 0, 0, 0, 0, 0,
            (predict_mq135 models.mq135 0 0 0).1,
            (predict_mq2 models.mq2 0).1,
            (predict_mq7 models.mq7 0).1⟩
         if (st.history ++ [r]).length > 1000 then (st.history ++ [r]).tail
         else st.history ++ [r]) :=
  ⟨rfl, rfl, rfl, rfl⟩

theorem processMessage_data (models : Models) (conn : Bool) (ts : String)
    (st : SessionState) (payload : Payload) :
    processMessage models conn ts st TOPIC_DATA payload =
      (parseFields payload).map (stepData models conn ts st) := by
  unfold processMessage
  rw [if_pos rfl]

/-- C5: when a loaded model's invocation raises, the prediction function
returns exactly `("Error", 0)` and the fault does not reach the caller; in
particular, with a raising mq2 classifier the drain body still completes,
its result records `("Error", 0)` for mq2, and the mq7 classification
still runs. -/
theorem model_fault_returns_error (m135 : MQ135Model) (m2 m7 : SimpleModel)
    (t u g x y : ℚ) (e135 e2 e7 : PyErr)
    (h135 : mq135Try m135 t u g = .error e135)
    (h2 : simpleTry m2 x = .error e2)
    (h7 : simpleTry m7 y = .error e7) :
    predict_mq135 (some m135) t u g = ("Error", 0)
    ∧ predict_mq2 (some m2) x = ("Error", 0)
    ∧ predict_mq7 (some m7) y = ("Error", 0)
    ∧ ∀ (models : Models) (conn : Bool) (ts : String) (st : SessionState)
        (payload : Payload) (a b c d : ℚ),
        models.mq2 = some m2 →
        parseFields payload = .ok (a, b, c, x, d) →
        processMessage models conn ts st TOPIC_DATA payload =
          .ok (stepData models conn ts st (a, b, c, x, d))
        ∧ (stepData models conn ts st (a, b, c, x, d)).1.predictions.mq2 =
            ("Error", 0)
        ∧ (stepData models conn ts st (a, b, c, x, d)).1.predictions.mq7 =
            predict_mq7 models.mq7 d := by
  refine ⟨?_, ?_, ?_, ?_⟩
  · rw [predict_mq135_some, h135]
  · rw [predict_mq2_some, h2]
  · rw [predict_mq7_some, h7]
  · intro models conn ts st payload a b c d hmod hparse
    refine ⟨?_, ?_, rfl⟩
    · rw [processMessage_data, hparse, exceptMap_ok]
    · show predict_mq2 models.mq2 x = ("Error", 0)
      rw [hmod, predict_mq2_some, h2]

/-- Witness for C5: concrete raising models, all inputs zero, empty
payload on the data topic. -/
theorem model_fault_returns_error_witness :
    predict_mq135 (some failing135) 0 0 0 = ("Error", 0)
    ∧ predict_mq2 (some failingSimple) 0 = ("Error", 0)
    ∧ predict_mq7 (some failingSimple) 0 = ("Error", 0)
    ∧ processMessage failingModels true "12:00:00" initialState TOPIC_DATA []
        = .ok (stepData failingModels true "12:00:00" initialState
            (0, 0, 0, 0, 0))
    ∧ (stepData failingModels true "12:00:00" initialState
        (0, 0, 0, 0, 0)).1.predictions.mq2 = ("Error", 0) := by
  have h := model_fault_returns_error failing135 failingSimple failingSimple
    0 0 0 0 0 .valueError .valueError .valueError rfl rfl rfl
  have h4 := h.2.2.2 failingModels true "12:00:00" initialState [] 0 0 0 0
    rfl rfl
  exact ⟨h.1, h.2.1, h.2.2.1, h4.1, h4.2.1⟩

/-- C6: with a loaded MQ-135 model, prediction feeds (temperature,
humidity, gas) to the artifact, decodes the predicted category index
through the label encoder, and returns the predicted class's probability
times 100 rounded to one decimal place as the confidence. -/
theorem mq135_prediction_decodes (m : MQ135Model) (t u g : ℚ) (i : ℕ)
    (lab : String) (ps : List ℚ) (p : ℚ)
    (hpred : m.predict t u g = .ok i)
    (hlab : m.inverseTransform i = .ok lab)
    (hproba : m.predictProba t u g = .ok ps)
    (hp : ps.get? i = some p) :
    predict_mq135 (some m) t u g = (lab, round1 (p * 100)) := by
  have htry : mq135Try m t u g = .ok (lab, round1 (p * 100)) := by
    unfold mq135Try
    rw [hpred, exceptBind_ok, hlab, exceptBind_ok, hproba, exceptBind_ok]
    unfold listIndex
    rw [hp]
    rfl
  rw [predict_mq135_some, htry]

/-- Witness for C6, the spec scenario: a model that produces category
"Baik" with probability 0.92 on input (25, 60, 120) yields the result
("Baik", 92.0). -/
theorem mq135_prediction_decodes_witness :
    predict_mq135 (some baikModel) 25 60 120 = ("Baik", 92) := by
  have h := mq135_prediction_decodes baikModel 25 60 120 0 "Baik"
    [92/100, 2/25] (92/100) rfl rfl rfl rfl
  rw [h]
  norm_num [round1, pyRoundHalfEven]

/-- C7: with loaded MQ-2 and MQ-7 models, prediction returns the model's
directly predicted label, and the confidence is the maximum per-category
probability (an element of the score list bounding all others) times 100
rounded to one decimal place. -/
theorem simple_prediction_confidence (m2 m7 : SimpleModel) (x y : ℚ)
    (lab2 lab7 : String) (ps2 ps7 : List ℚ) (mx2 mx7 : ℚ)
    (hp2 : m2.predict x = .ok lab2) (hq2 : m2.predictProba x = .ok ps2)
    (hx2 : pyMax ps2 = .ok mx2)
    (hp7 : m7.predict y = .ok lab7) (hq7 : m7.predictProba y = .ok ps7)
    (hx7 : pyMax ps7 = .ok mx7) :
    (predict_mq2 (some m2) x = (lab2, round1 (mx2 * 100))
      ∧ mx2 ∈ ps2 ∧ ∀ a ∈ ps2, a ≤ mx2)
    ∧ (predict_mq7 (some m7) y = (lab7, round1 (mx7 * 100))
      ∧ mx7 ∈ ps7 ∧ ∀ a ∈ ps7, a ≤ mx7) := by
  have t2 : simpleTry m2 x = .ok (lab2, round1 (mx2 * 100)) := by
    unfold simpleTry
    rw [hp2, exceptBind_ok, hq2, exceptBind_ok, hx2, exceptBind_ok]
    rfl
  have t7 : simpleTry m7 y = .ok (lab7, round1 (mx7 * 100)) := by
    unfold simpleTry
    rw [hp7, exceptBind_ok, hq7, exceptBind_ok, hx7, exceptBind_ok]
    rfl
  have hm2 := pyMax_is_max hx2
  have hm7 := pyMax_is_max hx7
  exact ⟨⟨by rw [predict_mq2_some, t2], hm2.1, hm2.2⟩,
         ⟨by rw [predict_mq7_some, t7], hm7.1, hm7.2⟩⟩

/-- Witness for C7: a model predicting "smoke" with score list [0.7]
yields ("smoke", 70.0) from both single-feature wrappers. -/
theorem simple_prediction_confidence_witness :
    predict_mq2 (some smokeModel) 5 = ("smoke", 70)
    ∧ predict_mq7 (some smokeModel) 3 = ("smoke", 70) := by
  have h := simple_prediction_confidence smokeModel smokeModel 5 3
    "smoke" "smoke" [7/10] [7/10] (7/10) (7/10) rfl rfl rfl rfl rfl rfl
  have e : round1 ((7:ℚ)/10 * 100) = 70 := by
    norm_num [round1, pyRoundHalfEven]
  exact ⟨by rw [h.1.1, e], by rw [h.2.1, e]⟩

theorem mq135Try_ok_inv {m : MQ135Model} {t u g : ℚ} {r : String × ℚ}
    (h : mq135Try m t u g = .ok r) :
    ∃ i lab ps p, m.predict t u g = .ok i ∧ m.inverseTransform i = .ok lab
      ∧ m.predictProba t u g = .ok ps ∧ ps.get? i = some p
      ∧ r = (lab, round1 (p * 100)) := by
  unfold mq135Try at h
  cases h1 : m.predict t u g with
  | error e => rw [h1, exceptBind_error] at h; exact absurd h (by simp)
  | ok i =>
    rw [h1, exceptBind_ok] at h
    cases h2 : m.inverseTransform i with
    | error e => rw [h2, exceptBind_error] at h; exact absurd h (by simp)
    | ok lab =>
      rw [h2, exceptBind_ok] at h
      cases h3 : m.predictProba t u g with
      | error e => rw [h3, exceptBind_error] at h; exact absurd h (by simp)
      | ok ps =>
        rw [h3, exceptBind_ok] at h
        unfold listIndex at h
        cases h4 : ps.get? i with
        | none => rw [h4] at h; exact absurd h (by simp)
        | some p =>
          rw [h4] at h
          refine ⟨i, lab, ps, p, rfl, h2, rfl, h4, ?_⟩
          have : Except.ok (lab, round1 (p * 100)) = (Except.ok r : Except PyErr (String × ℚ)) := h
          exact (Except.ok.inj this).symm

theorem simpleTry_ok_inv {m : SimpleModel} {x : ℚ} {r : String × ℚ}
    (h : simpleTry m x = .ok r) :
    ∃ lab ps mx, m.predict x = .ok lab ∧ m.predictProba x = .ok ps
      ∧ pyMax ps = .ok mx ∧ r = (lab, round1 (mx * 100)) := by
  unfold simpleTry at h
  cases h1 : m.predict x with
  | error e => rw [h1, exceptBind_error] at h; exact absurd h (by simp)
  | ok lab =>
    rw [h1, exceptBind_ok] at h
    cases h2 : m.predictProba x with
    | error e => rw [h2, exceptBind_error] at h; exact absurd h (by simp)
    | ok ps =>
      rw [h2, exceptBind_ok] at h
      cases h3 : pyMax ps with
      | error e => rw [h3, exceptBind_error] at h; exact absurd h (by simp)
      | ok mx =>
        rw [h3, exceptBind_ok] at h
        refine ⟨lab, ps, mx, rfl, rfl, h3, ?_⟩
        have : Except.ok (lab, round1 (mx * 100)) = (Except.ok r : Except PyErr (String × ℚ)) := h
        exact (Except.ok.inj this).symm

theorem processMessage_data_ok {models : Models} {conn : Bool} {ts : String}
    {st : SessionState} {payload : Payload} {st' : SessionState}
    {pubs : List PubMsg}
    (h : processMessage models conn ts st TOPIC_DATA payload = .ok (st', pubs)) :
    ∃ vals, parseFields payload = .ok vals
      ∧ stepData models conn ts st vals = (st', pubs) := by
  rw [processMessage_data] at h
  cases hp : parseFields payload with
  | error e => rw [hp] at h; exact absurd h (by simp [Except.map])
  | ok vals =>
    rw [hp, exceptMap_ok] at h
    exact ⟨vals, rfl, Except.ok.inj h⟩

theorem stepData_history (models : Models) (conn : Bool) (ts : String)
    (st : SessionState) (vals : ℚ × ℚ × ℚ × ℚ × ℚ) :
    ∃ r, (stepData models conn ts st vals).1.history =
      (if (st.history ++ [r]).length > 1000 then (st.history ++ [r]).tail
       else st.history ++ [r]) := by
  obtain ⟨a, b, c, d, e⟩ := vals
  exact ⟨_, rfl⟩

theorem stepData_history_le (models : Models) (conn : Bool) (ts : String)
    (st : SessionState) (vals : ℚ × ℚ × ℚ × ℚ × ℚ)
    (hle : st.history.length ≤ 1000) :
    (stepData models conn ts st vals).1.history.length ≤ 1000 := by
  obtain ⟨r, hr⟩ := stepData_history models conn ts st vals
  rw [hr]
  split
  · rw [List.length_tail, List.length_append]
    simp only [List.length_cons, List.length_nil]
    omega
  · next hgt =>
    rw [List.length_append] at hgt ⊢
    simp only [List.length_cons, List.length_nil] at hgt ⊢
    omega

theorem processMessage_history_le {models : Models} {conn : Bool}
    {ts : String} {st : SessionState} {topic : String} {payload : Payload}
    {st' : SessionState} {pubs : List PubMsg}
    (hle : st.history.length ≤ 1000)
    (h : processMessage models conn ts st topic payload = .ok (st', pubs)) :
    st'.history.length ≤ 1000 := by
  by_cases htop : topic = TOPIC_DATA
  · subst htop
    obtain ⟨vals, _, hstep⟩ := processMessage_data_ok h
    have hb := stepData_history_le models conn ts st vals hle
    rw [hstep] at hb
    exact hb
  · unfold processMessage at h
    rw [if_neg htop] at h
    obtain ⟨rfl, rfl⟩ := Prod.mk.inj (Except.ok.inj h)
    exact hle

theorem drainQueue_history_le (models : Models) (conn : Bool) :
    ∀ (items : List (String × Payload × String)) (st st' : SessionState)
      (pubs : List PubMsg),
    st.history.length ≤ 1000 →
    drainQueue models conn st items = .ok (st', pubs) →
    st'.history.length ≤ 1000 := by
  intro items
  induction items with
  | nil =>
    intro st st' pubs hle hd
    simp only [drainQueue] at hd
    obtain ⟨rfl, rfl⟩ := Prod.mk.inj (Except.ok.inj hd)
    exact hle
  | cons item rest ih =>
    obtain ⟨topic, payload, ts⟩ := item
    intro st st' pubs hle hd
    simp only [drainQueue] at hd
    cases hp : processMessage models conn ts st topic payload with
    | error e => rw [hp, exceptBind_error] at hd; exact absurd hd (by simp)
    | ok pr =>
      obtain ⟨st1, pubs1⟩ := pr
      rw [hp, exceptBind_ok] at hd
      cases hq : drainQueue models conn st1 rest with
      | error e => rw [hq, exceptBind_error] at hd; exact absurd hd (by simp)
      | ok pr2 =>
        obtain ⟨st2, pubs2⟩ := pr2
        rw [hq, exceptBind_ok] at hd
        obtain ⟨h1, _⟩ := Prod.mk.inj (Except.ok.inj hd)
        subst h1
        exact ih st1 st2 pubs2 (processMessage_history_le hle hp) hq

/-- C1: over any sequence of drained messages the history store never
exceeds 1000 records, and once it holds exactly 1000 records, processing
one more data-topic message keeps the length at 1000 and replaces the
store with its tail (the oldest record dropped) plus the one new record
appended at the end — strict FIFO eviction preserving insertion order. -/
theorem history_cap_fifo (models : Models) (conn : Bool) (st : SessionState)
    (items : List (String × Payload × String))
    (hle : st.history.length ≤ 1000) :
    (∀ st' pubs, drainQueue models conn st items = .ok (st', pubs) →
      st'.history.length ≤ 1000)
    ∧ (∀ ts payload st' pubs, st.history.length = 1000 →
        processMessage models conn ts st TOPIC_DATA payload = .ok (st', pubs) →
        st'.history.length = 1000
        ∧ ∃ r, st'.history = st.history.tail ++ [r]) := by
  constructor
  · intro st' pubs hd
    exact drainQueue_history_le models conn items st st' pubs hle hd
  · intro ts payload st' pubs hlen h
    obtain ⟨vals, _, hstep⟩ := processMessage_data_ok h
    obtain ⟨r, hr⟩ := stepData_history models conn ts st vals
    rw [hstep] at hr
    have hgt : (st.history ++ [r]).length > 1000 := by
      rw [List.length_append, hlen]
      simp
    rw [if_pos hgt] at hr
    have htl : (st.history ++ [r]).tail = st.history.tail ++ [r] := by
      cases hh : st.history with
      | nil => rw [hh] at hlen; simp at hlen
      | cons a as => simp
    refine ⟨?_, r, by rw [hr, htl]⟩
    rw [hr, List.length_tail, List.length_append, hlen]
    simp

/-- Witness for C1: a full 1000-record store, an empty drain pass, and one
more data message. -/
theorem history_cap_fifo_witness :
    (∀ st' pubs, drainQueue noModels true fullHistoryState [] = .ok (st', pubs) →
      st'.history.length ≤ 1000)
    ∧ (∀ ts payload st' pubs, fullHistoryState.history.length = 1000 →
        processMessage noModels true ts fullHistoryState TOPIC_DATA payload =
          .ok (st', pubs) →
        st'.history.length = 1000
        ∧ ∃ r, st'.history = fullHistoryState.history.tail ++ [r]) :=
  history_cap_fifo noModels true fullHistoryState []
    (by
      show (List.replicate 1000 dummyRecord).length ≤ 1000
      rw [List.length_replicate])

/-- C2 counterexample: a data-topic payload whose "temperature" field is a
non-numeric string makes the parse raise, and that fault propagates out of
the drain step and aborts the drain pass — it is not degraded to a
sentinel label. -/
theorem parse_fault_escapes_drain :
    processMessage noModels true "00:00:00" initialState TOPIC_DATA
      [("temperature", JVal.badStr)] = .error PyErr.valueError
    ∧ drainQueue noModels true initialState
        [(TOPIC_DATA, [("temperature", JVal.badStr)], "00:00:00")] =
        .error PyErr.valueError := by
  have h1 : processMessage noModels true "00:00:00" initialState TOPIC_DATA
      [("temperature", JVal.badStr)] = .error PyErr.valueError := by
    rw [processMessage_data]
    rfl
  refine ⟨h1, ?_⟩
  simp only [drainQueue, h1]
  rfl

/-- C2 amended: no fault raised while classifying the readings ever
propagates out of the drain step — for arbitrary (even raising) models the
step completes once the five field parses succeed, and every error the
step can produce is a payload-parsing fault on the data topic (which does
propagate and terminate the drain). -/
theorem drain_faults_only_from_parsing (models : Models) (conn : Bool)
    (ts : String) (st : SessionState) (topic : String) (payload : Payload) :
    (∀ e, processMessage models conn ts st topic payload = .error e →
      topic = TOPIC_DATA ∧ parseFields payload = .error e)
    ∧ (∀ vals, parseFields payload = .ok vals →
        processMessage models conn ts st TOPIC_DATA payload =
          .ok (stepData models conn ts st vals)) := by
  constructor
  · intro e h
    unfold processMessage at h
    by_cases htop : topic = TOPIC_DATA
    · rw [if_pos htop] at h
      refine ⟨htop, ?_⟩
      cases hp : parseFields payload with
      | error e' =>
        rw [hp] at h
        simp only [Except.map] at h
        rw [Except.error.inj h]
      | ok vals => rw [hp, exceptMap_ok] at h; exact absurd h (by simp)
    · rw [if_neg htop] at h
      exact absurd h (by simp)
  · intro vals hvals
    rw [processMessage_data, hvals, exceptMap_ok]

/-- Witness for C2 (amended): a well-formed payload completes the step
even though every loaded model raises at inference time. -/
theorem drain_faults_only_from_parsing_witness :
    processMessage failingModels true "00:00:00" initialState TOPIC_DATA
      [("temperature", JVal.num 21)] =
      .ok (stepData failingModels true "00:00:00" initialState
        (21, 0, 0, 0, 0)) :=
  (drain_faults_only_from_parsing failingModels true "00:00:00" initialState
    TOPIC_DATA [("temperature", JVal.num 21)]).2 (21, 0, 0, 0, 0) rfl

/-- C3 counterexample: a data-topic field that is present but unparseable
is not defaulted to 0 — `float` raises a ValueError instead. -/
theorem unparseable_field_not_defaulted :
    parseField [("temperature", JVal.badStr)] "temperature" =
      .error PyErr.valueError
    ∧ parseField [("temperature", JVal.badStr)] "temperature" ≠
      Except.ok 0 :=
  ⟨rfl, fun h => nomatch h⟩

/-- C3 amended: each of the five numeric fields parses to 0 when the key
is missing and to its numeric value when the value is a number or a
numeric string; a present value that cannot be coerced to float raises
(ValueError for a bad string, TypeError otherwise) rather than defaulting
to 0. -/
theorem field_parsing_behaviour (p : Payload) (k : String) :
    (List.lookup k p = none → parseField p k = .ok 0)
    ∧ (∀ q, List.lookup k p = some (JVal.num q) → parseField p k = .ok q)
    ∧ (∀ q, List.lookup k p = some (JVal.numStr q) → parseField p k = .ok q)
    ∧ (List.lookup k p = some JVal.badStr →
        parseField p k = .error PyErr.valueError)
    ∧ (List.lookup k p = some JVal.nonNumeric →
        parseField p k = .error PyErr.typeError) := by
  unfold parseField
  exact ⟨fun h => by rw [h],
    fun q h => by rw [h]; rfl,
    fun q h => by rw [h]; rfl,
    fun h => by rw [h]; rfl,
    fun h => by rw [h]; rfl⟩

/-- Witness for C3 (amended): a present numeric field and a missing field. -/
theorem field_parsing_behaviour_witness :
    parseField [("humidity", JVal.num 60)] "humidity" = .ok 60
    ∧ parseField [] "temperature" = .ok 0 :=
  ⟨(field_parsing_behaviour [("humidity", JVal.num 60)] "humidity").2.1 60 rfl,
   (field_parsing_behaviour [] "temperature").1 rfl⟩

/-- C9: assuming each loaded model's reported per-category probabilities
lie in [0, 1], every confidence the three prediction functions return —
including the N/A and Error sentinels — lies in [0, 100] and is an exact
one-decimal value. -/
theorem confidence_in_range (models : Models) (t u g x y : ℚ)
    (h135 : ∀ m, models.mq135 = some m →
      ∀ ps, m.predictProba t u g = .ok ps → ∀ p ∈ ps, 0 ≤ p ∧ p ≤ 1)
    (h2 : ∀ m, models.mq2 = some m →
      ∀ ps, m.predictProba x = .ok ps → ∀ p ∈ ps, 0 ≤ p ∧ p ≤ 1)
    (h7 : ∀ m, models.mq7 = some m →
      ∀ ps, m.predictProba y = .ok ps → ∀ p ∈ ps, 0 ≤ p ∧ p ≤ 1) :
    confOK (predict_mq135 models.mq135 t u g).2
    ∧ confOK (predict_mq2 models.mq2 x).2
    ∧ confOK (predict_mq7 models.mq7 y).2 := by
  have hzero : confOK 0 := ⟨⟨le_refl 0, by norm_num⟩, 0, by norm_num⟩
  have hround : ∀ p : ℚ, 0 ≤ p → p ≤ 1 → confOK (round1 (p * 100)) := by
    intro p hp0 hp1
    exact ⟨⟨round1_nonneg (by linarith), round1_le_100 (by linarith)⟩,
      round1_decimal _⟩
  refine ⟨?_, ?_, ?_⟩
  · cases hm : models.mq135 with
    | none => exact hzero
    | some m =>
      rw [predict_mq135_some]
      cases ht : mq135Try m t u g with
      | error e => exact hzero
      | ok r =>
        obtain ⟨i, lab, ps, p, _, _, hproba, hget, hr⟩ := mq135Try_ok_inv ht
        have hp := h135 m hm ps hproba p (List.get?_mem hget)
        rw [hr]
        exact hround p hp.1 hp.2
  · cases hm : models.mq2 with
    | none => exact hzero
    | some m =>
      rw [predict_mq2_some]
      cases ht : simpleTry m x with
      | error e => exact hzero
      | ok r =>
        obtain ⟨lab, ps, mx, _, hproba, hmax, hr⟩ := simpleTry_ok_inv ht
        have hp := h2 m hm ps hproba mx (pyMax_is_max hmax).1
        rw [hr]
        exact hround mx hp.1 hp.2
  · cases hm : models.mq7 with
    | none => exact hzero
    | some m =>
      rw [predict_mq7_some]
      cases ht : simpleTry m y with
      | error e => exact hzero
      | ok r =>
        obtain ⟨lab, ps, mx, _, hproba, hmax, hr⟩ := simpleTry_ok_inv ht
        have hp := h7 m hm ps hproba mx (pyMax_is_max hmax).1
        rw [hr]
        exact hround mx hp.1 hp.2

/-- Witness for C9 at the all-slots-unavailable models and zero inputs. -/
theorem confidence_in_range_witness :
    confOK (predict_mq135 noModels.mq135 0 0 0).2
    ∧ confOK (predict_mq2 noModels.mq2 0).2
    ∧ confOK (predict_mq7 noModels.mq7 0).2 :=
  confidence_in_range noModels 0 0 0 0 0
    (fun _ hm => nomatch hm) (fun _ hm => nomatch hm) (fun _ hm => nomatch hm)

end LabMonitor
